import Mathlib

/-!
Verification of the MCP TypeScript SDK protocol layer against its
natural-language specification.

The embedding below follows the repository sources:
* `src/types.ts` — protocol constants, the zod message schemas behind the
  four classifiers `isJSONRPCRequest` / `isJSONRPCNotification` /
  `isJSONRPCResponse` / `isJSONRPCError`, the `ErrorCode` enum and the
  logging level enumeration;
* `src/__mocks__/client.ts` — the client endpoint state (server info and
  server capabilities populated only by the initialize response);
* the server test file — which pins the version-negotiation, capability
  gating, timeout, cancellation and log-filtering behaviour of the
  protocol engine whose implementation files (`src/shared/protocol.ts`,
  `src/server/index.ts`) are not part of the source tree; those parts are
  modelled from the specification, as marked on each definition.
-/

namespace MCP

/-- A JSON value as decoded on the wire.  Numbers are modelled as
rationals so that the `z.number().int()` checks in the zod schemas
(`Number.isInteger` semantics) are expressible. -/
inductive JSON where
  | null : JSON
  | bool (b : Bool) : JSON
  | num (q : Rat) : JSON
  | str (s : String) : JSON
  | arr (elems : List JSON) : JSON
  | obj (fields : List (String × JSON)) : JSON

/-- First binding of a key in a JSON object, JavaScript-object style. -/
def getField (fields : List (String × JSON)) (k : String) : Option JSON :=
  match fields with
  | [] => none
  | (k', v) :: rest => if k == k' then some v else getField rest k

/-- `.strict()` zod objects reject unknown keys: every key of the object
must be in the declared key list. -/
def keysAllowed : List (String × JSON) → List String → Bool
  | [], _ => true
  | kv :: rest, allowed => allowed.contains kv.1 && keysAllowed rest allowed

/-- `z.literal(JSONRPC_VERSION)` with `JSONRPC_VERSION = "2.0"`. -/
def isJsonrpcTag : JSON → Bool
  | .str s => s == "2.0"
  | _ => false

/-- `z.string()`. -/
def isStrVal : JSON → Bool
  | .str _ => true
  | _ => false

/-- `z.number().int()` — a number that is an integer. -/
def isIntVal : JSON → Bool
  | .num q => q.den == 1
  | _ => false

/-- `z.union([z.string(), z.number().int()])` — the shape of a request id
or progress token as the schemas validate it. -/
def isIdVal (v : JSON) : Bool :=
  isStrVal v || isIntVal v

/-- Any object (`z.object({}).passthrough()`). -/
def isObjVal : JSON → Bool
  | .obj _ => true
  | _ => false

/-- The `_meta` object of a request: `progressToken`, when present, must
be a string or integer; other keys pass through. -/
def validRequestMeta : JSON → Bool
  | .obj fields =>
    match getField fields "progressToken" with
    | none => true
    | some v => isIdVal v
  | _ => false

/-- Request `params`: an object whose `_meta`, when present, satisfies
`validRequestMeta`; other keys pass through. -/
def validRequestParams : JSON → Bool
  | .obj fields =>
    match getField fields "_meta" with
    | none => true
    | some m => validRequestMeta m
  | _ => false

/-- Notification `params` and result values: an object whose `_meta`,
when present, is an object; other keys pass through. -/
def validOpenObject : JSON → Bool
  | .obj fields =>
    match getField fields "_meta" with
    | none => true
    | some m => isObjVal m
  | _ => false

/-- The nested `error` object of `JSONRPCErrorSchema`: integer `code`,
string `message`, optional unknown `data`; zod default objects strip
unknown keys but still parse successfully. -/
def validErrorObject : JSON → Bool
  | .obj fields =>
    (getField fields "code").any isIntVal &&
    (getField fields "message").any isStrVal
  | _ => false

/-- `isJSONRPCRequest` from `src/types.ts`: `JSONRPCRequestSchema` is a
strict object with literal `jsonrpc`, a string-or-integer `id`, a string
`method` and optional `params`. -/
def isJSONRPCRequest : JSON → Bool
  | .obj fields =>
    keysAllowed fields ["jsonrpc", "id", "method", "params"] &&
    (getField fields "jsonrpc").any isJsonrpcTag &&
    (getField fields "id").any isIdVal &&
    (getField fields "method").any isStrVal &&
    ((getField fields "params").map validRequestParams).getD true
  | _ => false

/-- `isJSONRPCNotification` from `src/types.ts`: strict object with
literal `jsonrpc`, string `method`, optional `params`; no `id` key is
permitted. -/
def isJSONRPCNotification : JSON → Bool
  | .obj fields =>
    keysAllowed fields ["jsonrpc", "method", "params"] &&
    (getField fields "jsonrpc").any isJsonrpcTag &&
    (getField fields "method").any isStrVal &&
    ((getField fields "params").map validOpenObject).getD true
  | _ => false

/-- `isJSONRPCResponse` from `src/types.ts`: strict object with literal
`jsonrpc`, string-or-integer `id` and a result object. -/
def isJSONRPCResponse : JSON → Bool
  | .obj fields =>
    keysAllowed fields ["jsonrpc", "id", "result"] &&
    (getField fields "jsonrpc").any isJsonrpcTag &&
    (getField fields "id").any isIdVal &&
    (getField fields "result").any validOpenObject
  | _ => false

/-- `isJSONRPCError` from `src/types.ts`: strict object with literal
`jsonrpc`, string-or-integer `id` and an `error` object carrying an
integer `code` and a string `message`. -/
def isJSONRPCError : JSON → Bool
  | .obj fields =>
    keysAllowed fields ["jsonrpc", "id", "error"] &&
    (getField fields "jsonrpc").any isJsonrpcTag &&
    (getField fields "id").any isIdVal &&
    (getField fields "error").any validErrorObject
  | _ => false

/-- The `ErrorCode` enum of `src/types.ts`. -/
inductive ErrorCode where
  | ConnectionClosed : ErrorCode
  | RequestTimeout : ErrorCode
  | ParseError : ErrorCode
  | InvalidRequest : ErrorCode
  | MethodNotFound : ErrorCode
  | InvalidParams : ErrorCode
  | InternalError : ErrorCode
deriving DecidableEq

/-- The numeric value of each `ErrorCode` member, as assigned in
`src/types.ts`. -/
def ErrorCode.code : ErrorCode → Int
  | .ConnectionClosed => -32000
  | .RequestTimeout => -32001
  | .ParseError => -32700
  | .InvalidRequest => -32600
  | .MethodNotFound => -32601
  | .InvalidParams => -32602
  | .InternalError => -32603

/-- All members of the `ErrorCode` enum, in source order. -/
def ErrorCode.all : List ErrorCode :=
  [.ConnectionClosed, .RequestTimeout, .ParseError, .InvalidRequest,
   .MethodNotFound, .InvalidParams, .InternalError]

/-- `LATEST_PROTOCOL_VERSION` from `src/types.ts`. -/
def LATEST_PROTOCOL_VERSION : String := "2025-06-18"

/-- `SUPPORTED_PROTOCOL_VERSIONS` from `src/types.ts`. -/
def SUPPORTED_PROTOCOL_VERSIONS : List String :=
  [LATEST_PROTOCOL_VERSION, "2025-03-26", "2024-11-05", "2024-10-07"]

/-- A capability object: a sparse map from capability name to an options
object (`ClientCapabilities` / `ServerCapabilities` in `src/types.ts`). -/
abbrev Capabilities := List (String × JSON)

/-- A declared capability is a present key of the capability object. -/
def hasCapabilityKey (caps : Capabilities) (cap : String) : Bool :=
  (getField caps cap).isSome

/-- The successful result of the handshake request (the
`InitializeResult` shape of `src/types.ts`, restricted to the fields the
claims are about). -/
structure InitResult where
  protocolVersion : String
  capabilities : Capabilities
  serverInfoName : String
  serverInfoVersion : String

/-- Modelled from the spec: the responder's handler for the `initialize`
request (`Server._oninitialize`; `src/server/index.ts` is not part of the
source tree).  The spec's version-negotiation table says a requested
version present in the supported set is echoed and the latest supported
version is proposed for a request carrying the latest; for a requested
version outside the supported set, the repository's own test
(`should handle unsupported protocol version`) and the
`InitializeResult.protocolVersion` documentation in `src/types.ts` fix the
behaviour: the responder still answers with a successful result proposing
the latest supported version, and it is the requester's duty to
disconnect if it cannot support that version. -/
def onInitRequest (requestedVersion : String) (serverCaps : Capabilities)
    (serverName serverVersion : String) : Except Int InitResult :=
  .ok { protocolVersion :=
          if SUPPORTED_PROTOCOL_VERSIONS.contains requestedVersion then requestedVersion
          else LATEST_PROTOCOL_VERSION
        capabilities := serverCaps
        serverInfoName := serverName
        serverInfoVersion := serverVersion }

/-- The client endpoint state of `src/__mocks__/client.ts`: client info
and declared capabilities fixed at construction, server info and server
capabilities private and initially unset. -/
structure Client where
  clientInfoName : String
  clientInfoVersion : String
  capabilities : Option Capabilities
  serverInfo : Option (String × String)
  serverCapabilities : Option Capabilities

/-- The `Client` constructor of `src/__mocks__/client.ts`: only
`_clientInfo` and `_capabilities` are set; `_serverInfo` and
`_serverCapabilities` start out undefined. -/
def Client.new (name version : String) (caps : Option Capabilities) : Client :=
  { clientInfoName := name
    clientInfoVersion := version
    capabilities := caps
    serverInfo := none
    serverCapabilities := none }

/-- `getServerCapabilities` from `src/__mocks__/client.ts`: returns the
private `_serverCapabilities` field as is (possibly undefined). -/
def Client.getServerCapabilities (c : Client) : Option Capabilities :=
  c.serverCapabilities

/-- `getServerVersion` from `src/__mocks__/client.ts`. -/
def Client.getServerVersion (c : Client) : Option (String × String) :=
  c.serverInfo

/-- What a client observes over time: either the result of its handshake
request arrives, or some other message does. -/
inductive ClientEvent where
  | initResult (r : InitResult) : ClientEvent
  | otherMessage : ClientEvent

/-- Whether an event is the arrival of the handshake result. -/
def ClientEvent.isInitResult : ClientEvent → Bool
  | .initResult _ => true
  | .otherMessage => false

/-- The only assignment to `_serverInfo` / `_serverCapabilities` in
`src/__mocks__/client.ts` is in `connect`, after the `initialize` request
has resolved; no other code path of the client mutates them. -/
def Client.step (c : Client) : ClientEvent → Client
  | .initResult r =>
      { c with serverInfo := some (r.serverInfoName, r.serverInfoVersion)
               serverCapabilities := some r.capabilities }
  | .otherMessage => c

/-- Process a sequence of events. -/
def Client.run (c : Client) (events : List ClientEvent) : Client :=
  events.foldl Client.step c

/-- Modelled from the spec: the peer-capability check of the protocol
engine (`Protocol.assertCapabilityForMethod`; `src/shared/protocol.ts` is
not part of the source tree).  Peer-capability checks fail closed while
peer capabilities are absent. -/
def checkPeerCapability (peer : Option Capabilities) (cap : String) : Bool :=
  match peer with
  | none => false
  | some caps => hasCapabilityKey caps cap

/-- Modelled from the spec: the capability a server must have declared to
register a request handler for a given method (inbound-handler gating
uses the local declared capabilities); the method-to-capability table is
pinned by the test `should only allow setRequestHandler for declared
capabilities`. -/
def serverHandlerCapability (method : String) : Option String :=
  if method == "prompts/list" || method == "prompts/get" then some "prompts"
  else if method == "resources/list" || method == "resources/read" then some "resources"
  else if method == "tools/list" || method == "tools/call" then some "tools"
  else if method == "logging/setLevel" then some "logging"
  else none

/-- Modelled from the spec: `Server.assertRequestHandlerCapability`
(`src/server/index.ts` is not part of the source tree) — a synchronous
check at registration time, raising with a message identifying the
missing capability, before any message is sent. -/
def assertRequestHandlerCapability (localCaps : Capabilities) (method : String) :
    Except String Unit :=
  match serverHandlerCapability method with
  | none => .ok ()
  | some cap =>
    if hasCapabilityKey localCaps cap then .ok ()
    else .error ("Server does not support " ++ cap)

/-- Modelled from the spec: the client capability a server-issued request
requires of its peer (outbound gating uses the peer's declared
capabilities), pinned by the test `should respect client capabilities`. -/
def clientCapabilityForMethod (method : String) : Option String :=
  if method == "sampling/createMessage" then some "sampling"
  else if method == "roots/list" then some "roots"
  else if method == "elicitation/create" then some "elicitation"
  else none

/-- Modelled from the spec: sending a request whose method requires a
peer capability checks that capability first and raises without
transmitting when it is missing; the transport trace (list of sent
methods) is returned alongside the outcome. -/
def sendRequestGated (peerCaps : Option Capabilities) (method : String)
    (transportSent : List String) : Except String Unit × List String :=
  match clientCapabilityForMethod method with
  | none => (.ok (), transportSent ++ [method])
  | some cap =>
    if checkPeerCapability peerCaps cap then (.ok (), transportSent ++ [method])
    else (.error ("Client does not support " ++ cap), transportSent)

/-- Modelled from the spec: the server capability a server-issued
notification requires of this side, pinned by the test `should respect
server notification capabilities`. -/
def serverNotificationCapability (method : String) : Option String :=
  if method == "notifications/message" then some "logging"
  else if method == "notifications/resources/updated" then some "resources"
  else if method == "notifications/resources/list_changed" then some "resources"
  else if method == "notifications/tools/list_changed" then some "tools"
  else if method == "notifications/prompts/list_changed" then some "prompts"
  else none

/-- Modelled from the spec: sending a notification whose method requires
a locally declared capability checks it first and raises without
transmitting when it is missing. -/
def sendNotificationGated (localCaps : Capabilities) (method : String)
    (transportSent : List String) : Except String Unit × List String :=
  match serverNotificationCapability method with
  | none => (.ok (), transportSent ++ [method])
  | some cap =>
    if hasCapabilityKey localCaps cap then (.ok (), transportSent ++ [method])
    else (.error ("Server does not support " ++ cap), transportSent)

/-- Terminal outcomes of one outbound request. -/
inductive RequestOutcome where
  | resolved : RequestOutcome
  | rejected (code : Int) : RequestOutcome
deriving DecidableEq

/-- Modelled from the spec: the timeout wiring of `Protocol.request`
(`src/shared/protocol.ts` is not part of the source tree).  A timer is
armed for `timeout` milliseconds when the request is sent; a matching
response arriving after delay `d` settles the call only if it beats the
timer (`d < timeout`), otherwise the call rejects with the
`RequestTimeout` code.  A response can arrive no earlier than the send
itself, so a zero timeout fires before any response. -/
def settleWithTimeout (timeout : Nat) (responseAt : Option Nat) : RequestOutcome :=
  match responseAt with
  | some d => if d < timeout then .resolved else .rejected ErrorCode.RequestTimeout.code
  | none => .rejected ErrorCode.RequestTimeout.code

/-- Terminal outcomes of a pending request as seen by the caller,
including the cancellation reason on abort. -/
inductive PendingOutcome where
  | resolved : PendingOutcome
  | rejectedWithReason (reason : String) : PendingOutcome
deriving DecidableEq

/-- Modelled from the spec: the pending-request table of the Request
Tracker (`src/shared/protocol.ts` is not part of the source tree) —
request ids currently outstanding, and the recorded terminal outcome of
each settled call. -/
structure Tracker where
  pending : List Nat
  outcomes : Nat → Option PendingOutcome

/-- Events that can settle a pending request. -/
inductive TrackerEvent where
  | abortBy (id : Nat) (reason : String) : TrackerEvent
  | responseArrives (id : Nat) : TrackerEvent

/-- Modelled from the spec: each resolution path removes the
PendingRequest exactly once; a caller-supplied cancellation signal
rejects with the cancellation reason, a matching response resolves; an
event for an id that is no longer pending has no effect (late responses
and racy cancellations are tolerated silently). -/
def Tracker.step (t : Tracker) : TrackerEvent → Tracker
  | .abortBy id reason =>
    if id ∈ t.pending then
      { pending := t.pending.erase id
        outcomes := fun n =>
          if n = id then some (.rejectedWithReason reason) else t.outcomes n }
    else t
  | .responseArrives id =>
    if id ∈ t.pending then
      { pending := t.pending.erase id
        outcomes := fun n => if n = id then some .resolved else t.outcomes n }
    else t

/-- The logging severity enumeration of `src/types.ts`
(`LoggingLevelSchema`), in schema order. -/
inductive LoggingLevel where
  | debug : LoggingLevel
  | info : LoggingLevel
  | notice : LoggingLevel
  | warning : LoggingLevel
  | error : LoggingLevel
  | critical : LoggingLevel
  | alert : LoggingLevel
  | emergency : LoggingLevel
deriving DecidableEq

/-- Position of each level in the `LoggingLevelSchema` enumeration of
`src/types.ts` (higher is more severe). -/
def LoggingLevel.severity : LoggingLevel → Nat
  | .debug => 0
  | .info => 1
  | .notice => 2
  | .warning => 3
  | .error => 4
  | .critical => 5
  | .alert => 6
  | .emergency => 7

/-- Modelled from the spec: the server's log-level filtering state
(`src/server/index.ts` is not part of the source tree) — the minimum
severity chosen by the peer, kept globally for a transport without a
session identifier and partitioned per session identifier otherwise. -/
structure LoggingState where
  defaultLevel : Option LoggingLevel
  sessionLevels : String → Option LoggingLevel

/-- No level has been set anywhere initially. -/
def LoggingState.initial : LoggingState :=
  { defaultLevel := none, sessionLevels := fun _ => none }

/-- Modelled from the spec: handling of a `logging/setLevel` request —
records the requested minimum level for the requesting session (or
globally when the transport has no session identifier). -/
def LoggingState.setLevel (st : LoggingState) (sessionId : Option String)
    (l : LoggingLevel) : LoggingState :=
  match sessionId with
  | none => { st with defaultLevel := some l }
  | some sid =>
    { st with sessionLevels := fun s => if s = sid then some l else st.sessionLevels s }

/-- The minimum level applying to a given session context. -/
def LoggingState.levelFor (st : LoggingState) (sessionId : Option String) :
    Option LoggingLevel :=
  match sessionId with
  | none => st.defaultLevel
  | some sid => st.sessionLevels sid

/-- Modelled from the spec: whether a logging-message notification at a
given severity passes the filter — with no level set every message
passes; otherwise only messages at or above the minimum severity do. -/
def shouldSendLog (st : LoggingState) (sessionId : Option String)
    (l : LoggingLevel) : Bool :=
  match st.levelFor sessionId with
  | none => true
  | some minLevel => decide (minLevel.severity ≤ l.severity)

/-- Modelled from the spec: `sendLoggingMessage` — a notification below
the negotiated minimum severity is dropped before reaching the transport
(no message is sent); one at or above it is delivered.  The transport
trace is the list of levels of the messages actually sent. -/
def sendLoggingMessage (st : LoggingState) (sessionId : Option String)
    (l : LoggingLevel) (transportSent : List LoggingLevel) : List LoggingLevel :=
  if shouldSendLog st sessionId l then transportSent ++ [l] else transportSent

/-! ## Helper lemmas -/

theorem band_left {a b : Bool} (h : (a && b) = true) : a = true := by
  cases a <;> simp_all

theorem band_right {a b : Bool} (h : (a && b) = true) : b = true := by
  cases b <;> simp_all

theorem option_any_isSome {α : Type} {p : α → Bool} {o : Option α}
    (h : o.any p = true) : o.isSome = true := by
  cases o <;> simp_all [Option.any]

/-- A key with a binding in a strict object must be among the allowed keys. -/
theorem getField_keysAllowed {fields : List (String × JSON)} {k : String}
    {allowed : List String} (hsome : (getField fields k).isSome = true)
    (hall : keysAllowed fields allowed = true) : allowed.contains k = true := by
  induction fields with
  | nil => simp [getField] at hsome
  | cons kv rest ih =>
    rw [keysAllowed] at hall
    have hall1 := band_left hall
    have hall2 := band_right hall
    rw [getField] at hsome
    by_cases hk : k == kv.1
    · have : k = kv.1 := by simpa using hk
      rw [this]
      exact hall1
    · rw [if_neg hk] at hsome
      exact ih hsome hall2

theorem isJSONRPCRequest_elim {v : JSON} (h : isJSONRPCRequest v = true) :
    ∃ fields, v = JSON.obj fields ∧
      keysAllowed fields ["jsonrpc", "id", "method", "params"] = true ∧
      (getField fields "id").any isIdVal = true ∧
      (getField fields "method").any isStrVal = true := by
  cases v with
  | obj fields =>
    simp only [isJSONRPCRequest] at h
    exact ⟨fields, rfl, band_left (band_left (band_left (band_left h))),
      band_right (band_left (band_left h)), band_right (band_left h)⟩
  | null => exact Bool.noConfusion h
  | bool b => exact Bool.noConfusion h
  | num q => exact Bool.noConfusion h
  | str s => exact Bool.noConfusion h
  | arr xs => exact Bool.noConfusion h

theorem isJSONRPCNotification_elim {v : JSON} (h : isJSONRPCNotification v = true) :
    ∃ fields, v = JSON.obj fields ∧
      keysAllowed fields ["jsonrpc", "method", "params"] = true ∧
      (getField fields "method").any isStrVal = true := by
  cases v with
  | obj fields =>
    simp only [isJSONRPCNotification] at h
    exact ⟨fields, rfl, band_left (band_left (band_left h)), band_right (band_left h)⟩
  | null => exact Bool.noConfusion h
  | bool b => exact Bool.noConfusion h
  | num q => exact Bool.noConfusion h
  | str s => exact Bool.noConfusion h
  | arr xs => exact Bool.noConfusion h

theorem isJSONRPCResponse_elim {v : JSON} (h : isJSONRPCResponse v = true) :
    ∃ fields, v = JSON.obj fields ∧
      keysAllowed fields ["jsonrpc", "id", "result"] = true ∧
      (getField fields "id").any isIdVal = true ∧
      (getField fields "result").any validOpenObject = true := by
  cases v with
  | obj fields =>
    simp only [isJSONRPCResponse] at h
    exact ⟨fields, rfl, band_left (band_left (band_left h)),
      band_right (band_left h), band_right h⟩
  | null => exact Bool.noConfusion h
  | bool b => exact Bool.noConfusion h
  | num q => exact Bool.noConfusion h
  | str s => exact Bool.noConfusion h
  | arr xs => exact Bool.noConfusion h

theorem isJSONRPCError_elim {v : JSON} (h : isJSONRPCError v = true) :
    ∃ fields, v = JSON.obj fields ∧
      keysAllowed fields ["jsonrpc", "id", "error"] = true ∧
      (getField fields "id").any isIdVal = true ∧
      (getField fields "error").any validErrorObject = true := by
  cases v with
  | obj fields =>
    simp only [isJSONRPCError] at h
    exact ⟨fields, rfl, band_left (band_left (band_left h)),
      band_right (band_left h), band_right h⟩
  | null => exact Bool.noConfusion h
  | bool b => exact Bool.noConfusion h
  | num q => exact Bool.noConfusion h
  | str s => exact Bool.noConfusion h
  | arr xs => exact Bool.noConfusion h

theorem not_request_and_notification (v : JSON) :
    ¬(isJSONRPCRequest v = true ∧ isJSONRPCNotification v = true) := by
  rintro ⟨hr, hn⟩
  obtain ⟨f1, rfl, _, hid, _⟩ := isJSONRPCRequest_elim hr
  obtain ⟨f2, heq, hkeys, _⟩ := isJSONRPCNotification_elim hn
  cases heq
  have := getField_keysAllowed (option_any_isSome hid) hkeys
  simp at this

theorem not_request_and_response (v : JSON) :
    ¬(isJSONRPCRequest v = true ∧ isJSONRPCResponse v = true) := by
  rintro ⟨hr, hp⟩
  obtain ⟨f1, rfl, _, _, hmethod⟩ := isJSONRPCRequest_elim hr
  obtain ⟨f2, heq, hkeys, _, _⟩ := isJSONRPCResponse_elim hp
  cases heq
  have := getField_keysAllowed (option_any_isSome hmethod) hkeys
  simp at this

theorem not_request_and_error (v : JSON) :
    ¬(isJSONRPCRequest v = true ∧ isJSONRPCError v = true) := by
  rintro ⟨hr, he⟩
  obtain ⟨f1, rfl, _, _, hmethod⟩ := isJSONRPCRequest_elim hr
  obtain ⟨f2, heq, hkeys, _, _⟩ := isJSONRPCError_elim he
  cases heq
  have := getField_keysAllowed (option_any_isSome hmethod) hkeys
  simp at this

theorem not_notification_and_response (v : JSON) :
    ¬(isJSONRPCNotification v = true ∧ isJSONRPCResponse v = true) := by
  rintro ⟨hn, hp⟩
  obtain ⟨f1, rfl, _, hmethod⟩ := isJSONRPCNotification_elim hn
  obtain ⟨f2, heq, hkeys, _, _⟩ := isJSONRPCResponse_elim hp
  cases heq
  have := getField_keysAllowed (option_any_isSome hmethod) hkeys
  simp at this

theorem not_notification_and_error (v : JSON) :
    ¬(isJSONRPCNotification v = true ∧ isJSONRPCError v = true) := by
  rintro ⟨hn, he⟩
  obtain ⟨f1, rfl, _, hmethod⟩ := isJSONRPCNotification_elim hn
  obtain ⟨f2, heq, hkeys, _, _⟩ := isJSONRPCError_elim he
  cases heq
  have := getField_keysAllowed (option_any_isSome hmethod) hkeys
  simp at this

theorem not_response_and_error (v : JSON) :
    ¬(isJSONRPCResponse v = true ∧ isJSONRPCError v = true) := by
  rintro ⟨hp, he⟩
  obtain ⟨f1, rfl, _, _, hresult⟩ := isJSONRPCResponse_elim hp
  obtain ⟨f2, heq, hkeys, _, _⟩ := isJSONRPCError_elim he
  cases heq
  have := getField_keysAllowed (option_any_isSome hresult) hkeys
  simp at this

theorem bool_count_le_one {a b c d : Bool}
    (hab : ¬(a = true ∧ b = true)) (hac : ¬(a = true ∧ c = true))
    (had : ¬(a = true ∧ d = true)) (hbc : ¬(b = true ∧ c = true))
    (hbd : ¬(b = true ∧ d = true)) (hcd : ¬(c = true ∧ d = true)) :
    a.toNat + b.toNat + c.toNat + d.toNat ≤ 1 := by
  cases a <;> cases b <;> cases c <;> cases d <;> simp_all

theorem bool_eq_false_of_not {b : Bool} (h : ¬(b = true)) : b = false := by
  cases b <;> simp_all

/-! ## Claim theorems -/

/-- C7: the four message-shape classifiers are mutually exclusive — for
every raw value at most one of `isJSONRPCRequest`,
`isJSONRPCNotification`, `isJSONRPCResponse`, `isJSONRPCError` returns
true; in particular a value carrying an `id` field never classifies as a
notification, and a value carrying both `result` and `error` keys
classifies as neither a response nor an error response. -/
theorem classifiers_mutually_exclusive :
    (∀ v : JSON,
      (isJSONRPCRequest v).toNat + (isJSONRPCNotification v).toNat +
        (isJSONRPCResponse v).toNat + (isJSONRPCError v).toNat ≤ 1) ∧
    (∀ fields : List (String × JSON), (getField fields "id").isSome = true →
      isJSONRPCNotification (JSON.obj fields) = false) ∧
    (∀ fields : List (String × JSON),
      (getField fields "result").isSome = true →
      (getField fields "error").isSome = true →
      isJSONRPCResponse (JSON.obj fields) = false ∧
        isJSONRPCError (JSON.obj fields) = false) := by
  refine ⟨?_, ?_, ?_⟩
  · intro v
    exact bool_count_le_one (not_request_and_notification v)
      (not_request_and_response v) (not_request_and_error v)
      (not_notification_and_response v) (not_notification_and_error v)
      (not_response_and_error v)
  · intro fields hid
    apply bool_eq_false_of_not
    intro hn
    obtain ⟨f2, heq, hkeys, _⟩ := isJSONRPCNotification_elim hn
    cases heq
    have := getField_keysAllowed hid hkeys
    simp at this
  · intro fields hres herr
    constructor
    · apply bool_eq_false_of_not
      intro hp
      obtain ⟨f2, heq, hkeys, _, _⟩ := isJSONRPCResponse_elim hp
      cases heq
      have := getField_keysAllowed herr hkeys
      simp at this
    · apply bool_eq_false_of_not
      intro he
      obtain ⟨f2, heq, hkeys, _, _⟩ := isJSONRPCError_elim he
      cases heq
      have := getField_keysAllowed hres hkeys
      simp at this

/-- Witness for C7 at concrete inputs: an object with an `id` key is not
a notification, and an object with both `result` and `error` keys is not
a response. -/
theorem classifiers_mutually_exclusive_witness :
    (getField [("id", JSON.num 1)] "id").isSome = true ∧
    isJSONRPCNotification (JSON.obj [("id", JSON.num 1)]) = false ∧
    (getField [("result", JSON.obj []), ("error", JSON.obj [])] "result").isSome = true ∧
    (getField [("result", JSON.obj []), ("error", JSON.obj [])] "error").isSome = true ∧
    isJSONRPCResponse (JSON.obj [("result", JSON.obj []), ("error", JSON.obj [])]) = false :=
  ⟨by rfl,
   classifiers_mutually_exclusive.2.1 [("id", JSON.num 1)] (by rfl),
   by rfl, by rfl,
   (classifiers_mutually_exclusive.2.2 [("result", JSON.obj []), ("error", JSON.obj [])]
     (by rfl) (by rfl)).1⟩

/-- C10: a message whose `id` is a non-integer number is rejected by all
three id-carrying classifiers (`z.number().int()` in the schemas), so it
is unclassifiable. -/
theorem nonIntegerNumericId_unclassifiable :
    ∀ (fields : List (String × JSON)) (q : Rat), q.den ≠ 1 →
      getField fields "id" = some (JSON.num q) →
      isJSONRPCRequest (JSON.obj fields) = false ∧
      isJSONRPCResponse (JSON.obj fields) = false ∧
      isJSONRPCError (JSON.obj fields) = false := by
  intro fields q hden hid
  have hvalfalse : isIdVal (JSON.num q) = false := by
    simp [isIdVal, isStrVal, isIntVal, hden]
  have hany : (getField fields "id").any isIdVal = false := by
    rw [hid]
    simp [Option.any, hvalfalse]
  refine ⟨?_, ?_, ?_⟩
  · apply bool_eq_false_of_not
    intro h
    obtain ⟨f2, heq, _, hidany, _⟩ := isJSONRPCRequest_elim h
    cases heq
    rw [hany] at hidany
    exact Bool.noConfusion hidany
  · apply bool_eq_false_of_not
    intro h
    obtain ⟨f2, heq, _, hidany, _⟩ := isJSONRPCResponse_elim h
    cases heq
    rw [hany] at hidany
    exact Bool.noConfusion hidany
  · apply bool_eq_false_of_not
    intro h
    obtain ⟨f2, heq, _, hidany, _⟩ := isJSONRPCError_elim h
    cases heq
    rw [hany] at hidany
    exact Bool.noConfusion hidany

/-- Witness for C10 at `id = 3/2`: a full request shape with a
non-integer numeric id fails all three classifiers. -/
theorem nonIntegerNumericId_unclassifiable_witness :
    (mkRat 3 2).den ≠ 1 ∧
    getField [("jsonrpc", JSON.str "2.0"), ("id", JSON.num (mkRat 3 2)),
        ("method", JSON.str "ping")] "id" = some (JSON.num (mkRat 3 2)) ∧
    isJSONRPCRequest (JSON.obj [("jsonrpc", JSON.str "2.0"),
        ("id", JSON.num (mkRat 3 2)), ("method", JSON.str "ping")]) = false :=
  ⟨by decide, by rfl,
   (nonIntegerNumericId_unclassifiable
     [("jsonrpc", JSON.str "2.0"), ("id", JSON.num (mkRat 3 2)),
      ("method", JSON.str "ping")] (mkRat 3 2) (by decide) (by rfl)).1⟩

/-- C8: the reserved error codes exposed by the engine are exactly
ParseError, InvalidRequest, MethodNotFound, InvalidParams, InternalError,
ConnectionClosed and RequestTimeout, with the stated numeric values. -/
theorem errorCodes_exact :
    (∀ c : ErrorCode, c ∈ ErrorCode.all) ∧
    ErrorCode.all.map ErrorCode.code =
      [-32000, -32001, -32700, -32600, -32601, -32602, -32603] ∧
    ErrorCode.ParseError.code = -32700 ∧
    ErrorCode.InvalidRequest.code = -32600 ∧
    ErrorCode.MethodNotFound.code = -32601 ∧
    ErrorCode.InvalidParams.code = -32602 ∧
    ErrorCode.InternalError.code = -32603 ∧
    ErrorCode.ConnectionClosed.code = -32000 ∧
    ErrorCode.RequestTimeout.code = -32001 := by
  refine ⟨fun c => ?_, rfl, rfl, rfl, rfl, rfl, rfl, rfl, rfl⟩
  cases c <;> simp [ErrorCode.all]

/-- C2: an initialize request carrying the latest supported protocol
version gets a result proposing the latest version; one carrying any
other version present in the supported set gets a result echoing exactly
that version. -/
theorem versionNegotiation_supported_echoed :
    ∀ (caps : Capabilities) (name ver : String),
      ((onInitRequest LATEST_PROTOCOL_VERSION caps name ver).map
        (fun r => r.protocolVersion) = .ok LATEST_PROTOCOL_VERSION) ∧
      (∀ requested : String, requested ∈ SUPPORTED_PROTOCOL_VERSIONS →
        (onInitRequest requested caps name ver).map
          (fun r => r.protocolVersion) = .ok requested) := by
  intro caps name ver
  constructor
  · simp [onInitRequest, Except.map, SUPPORTED_PROTOCOL_VERSIONS]
  · intro requested hreq
    have hcontains : SUPPORTED_PROTOCOL_VERSIONS.contains requested = true := by
      simpa using hreq
    simp only [onInitRequest, Except.map]
    rw [if_pos (by simpa using hcontains)]

/-- Witness for C2: the older supported version "2025-03-26" is echoed. -/
theorem versionNegotiation_supported_echoed_witness :
    "2025-03-26" ∈ SUPPORTED_PROTOCOL_VERSIONS ∧
    (onInitRequest "2025-03-26" [] "test server" "1.0").map
      (fun r => r.protocolVersion) = .ok "2025-03-26" :=
  ⟨by simp [SUPPORTED_PROTOCOL_VERSIONS],
   (versionNegotiation_supported_echoed [] "test server" "1.0").2 "2025-03-26"
     (by simp [SUPPORTED_PROTOCOL_VERSIONS])⟩

/-- C1 counterexample: for the unsupported version "invalid-version" the
responder still returns a successful initialize result — proposing the
latest supported version — so the handshake is not failed by the
responder, contradicting the claim that no successful initialize result
is returned. -/
theorem unsupportedVersion_succeeds_counterexample :
    "invalid-version" ∉ SUPPORTED_PROTOCOL_VERSIONS ∧
    (onInitRequest "invalid-version" [] "test server" "1.0").map
      (fun r => r.protocolVersion) = .ok LATEST_PROTOCOL_VERSION := by
  constructor
  · simp [SUPPORTED_PROTOCOL_VERSIONS, LATEST_PROTOCOL_VERSION]
  · rfl

/-- C1 amended: when the responder receives an initialize request whose
protocolVersion is absent from the supported set, it does not fail the
handshake; it returns a successful initialize result proposing the
latest supported version (tearing the connection down is then the
initiator's duty if it cannot support that version). -/
theorem unsupportedVersion_proposes_latest :
    ∀ (requested : String) (caps : Capabilities) (name ver : String),
      requested ∉ SUPPORTED_PROTOCOL_VERSIONS →
      (onInitRequest requested caps name ver).map (fun r => r.protocolVersion)
        = .ok LATEST_PROTOCOL_VERSION := by
  intro requested caps name ver h
  simp only [onInitRequest, Except.map]
  rw [if_neg ?_]
  intro hc
  exact h (by simpa using hc)

/-- Witness for the amended C1 at "invalid-version". -/
theorem unsupportedVersion_proposes_latest_witness :
    "invalid-version" ∉ SUPPORTED_PROTOCOL_VERSIONS ∧
    (onInitRequest "invalid-version" [] "test server" "1.0").map
      (fun r => r.protocolVersion) = .ok LATEST_PROTOCOL_VERSION :=
  ⟨by simp [SUPPORTED_PROTOCOL_VERSIONS, LATEST_PROTOCOL_VERSION],
   unsupportedVersion_proposes_latest "invalid-version" [] "test server" "1.0"
     (by simp [SUPPORTED_PROTOCOL_VERSIONS, LATEST_PROTOCOL_VERSION])⟩

/-- C3: every capability violation is raised locally and nothing is
transmitted — registering a request handler for a method whose
capability is not locally declared raises synchronously with a message
identifying the missing capability, and sending a request (or
notification) whose method requires an undeclared capability raises with
the transport trace unchanged. -/
theorem capabilityViolations_local_and_untransmitted :
    (∀ (localCaps : Capabilities) (method cap : String),
      serverHandlerCapability method = some cap →
      hasCapabilityKey localCaps cap = false →
      assertRequestHandlerCapability localCaps method =
        .error ("Server does not support " ++ cap)) ∧
    (∀ (peerCaps : Option Capabilities) (method cap : String) (sent : List String),
      clientCapabilityForMethod method = some cap →
      checkPeerCapability peerCaps cap = false →
      sendRequestGated peerCaps method sent =
        (.error ("Client does not support " ++ cap), sent)) ∧
    (∀ (localCaps : Capabilities) (method cap : String) (sent : List String),
      serverNotificationCapability method = some cap →
      hasCapabilityKey localCaps cap = false →
      sendNotificationGated localCaps method sent =
        (.error ("Server does not support " ++ cap), sent)) := by
  refine ⟨?_, ?_, ?_⟩
  · intro localCaps method cap h1 h2
    simp [assertRequestHandlerCapability, h1, h2]
  · intro peerCaps method cap sent h1 h2
    simp [sendRequestGated, h1, h2]
  · intro localCaps method cap sent h1 h2
    simp [sendNotificationGated, h1, h2]

/-- Witness for C3: a server declaring only `prompts` cannot register a
tools/list handler, a server whose peer declared no capabilities cannot
send roots/list, and a server without `resources` cannot send a
resource-updated notification; in each case the transport trace is
untouched. -/
theorem capabilityViolations_local_and_untransmitted_witness :
    serverHandlerCapability "tools/list" = some "tools" ∧
    hasCapabilityKey [("prompts", JSON.obj [])] "tools" = false ∧
    assertRequestHandlerCapability [("prompts", JSON.obj [])] "tools/list" =
      .error "Server does not support tools" ∧
    clientCapabilityForMethod "roots/list" = some "roots" ∧
    checkPeerCapability (some []) "roots" = false ∧
    sendRequestGated (some []) "roots/list" [] =
      (.error "Client does not support roots", []) ∧
    serverNotificationCapability "notifications/resources/updated" = some "resources" ∧
    hasCapabilityKey [("logging", JSON.obj [])] "resources" = false ∧
    sendNotificationGated [("logging", JSON.obj [])]
      "notifications/resources/updated" ["notifications/message"] =
      (.error "Server does not support resources", ["notifications/message"]) :=
  ⟨by rfl, by rfl,
   capabilityViolations_local_and_untransmitted.1 [("prompts", JSON.obj [])]
     "tools/list" "tools" (by rfl) (by rfl),
   by rfl, by rfl,
   capabilityViolations_local_and_untransmitted.2.1 (some []) "roots/list" "roots" []
     (by rfl) (by rfl),
   by rfl, by rfl,
   capabilityViolations_local_and_untransmitted.2.2 [("logging", JSON.obj [])]
     "notifications/resources/updated" "resources" ["notifications/message"]
     (by rfl) (by rfl)⟩

theorem Client.run_cons (c : Client) (e : ClientEvent) (rest : List ClientEvent) :
    Client.run c (e :: rest) = Client.run (c.step e) rest := rfl

/-- Processing only non-handshake events never changes the stored server
capabilities. -/
theorem client_run_no_init (c : Client) (events : List ClientEvent)
    (h : events.all (fun e => !e.isInitResult) = true) :
    (c.run events).serverCapabilities = c.serverCapabilities := by
  induction events generalizing c with
  | nil => rfl
  | cons e rest ih =>
    rw [List.all_cons] at h
    have he := band_left h
    have hrest := band_right h
    cases e with
    | initResult r => simp [ClientEvent.isInitResult] at he
    | otherMessage =>
      rw [Client.run_cons]
      exact ih c hrest

/-- C4: peer capabilities are absent (undefined, not an empty map) on a
newly constructed endpoint and stay absent until the handshake result is
received; every peer-capability check before that point fails closed;
once the result arrives the accessor returns exactly the capabilities it
carried. -/
theorem peerCapabilities_absent_until_handshake :
    (∀ (name ver : String) (caps : Option Capabilities),
      (Client.new name ver caps).getServerCapabilities = none) ∧
    (∀ (name ver : String) (caps : Option Capabilities)
        (events : List ClientEvent),
      events.all (fun e => !e.isInitResult) = true →
      ((Client.new name ver caps).run events).getServerCapabilities = none) ∧
    (∀ (name ver : String) (caps : Option Capabilities)
        (events : List ClientEvent) (cap : String),
      events.all (fun e => !e.isInitResult) = true →
      checkPeerCapability
        (((Client.new name ver caps).run events).getServerCapabilities) cap = false) ∧
    (∀ (c : Client) (r : InitResult),
      (c.step (ClientEvent.initResult r)).getServerCapabilities
        = some r.capabilities) := by
  refine ⟨fun name ver caps => rfl, ?_, ?_, fun c r => rfl⟩
  · intro name ver caps events h
    exact client_run_no_init (Client.new name ver caps) events h
  · intro name ver caps events cap h
    rw [Client.getServerCapabilities, client_run_no_init (Client.new name ver caps) events h]
    rfl

/-- Witness for C4: a fresh client that has seen one non-handshake
message still reports no server capabilities and fails a capability
check closed; after the handshake result it reports that result's
capabilities. -/
theorem peerCapabilities_absent_until_handshake_witness :
    ([ClientEvent.otherMessage].all (fun e => !e.isInitResult) = true) ∧
    ((Client.new "test client" "1.0" none).run
        [ClientEvent.otherMessage]).getServerCapabilities = none ∧
    checkPeerCapability (((Client.new "test client" "1.0" none).run
        [ClientEvent.otherMessage]).getServerCapabilities) "sampling" = false ∧
    ((Client.new "test client" "1.0" none).step
        (ClientEvent.initResult
          { protocolVersion := "2025-06-18"
            capabilities := [("sampling", JSON.obj [])]
            serverInfoName := "test server"
            serverInfoVersion := "1.0" })).getServerCapabilities
      = some [("sampling", JSON.obj [])] :=
  ⟨by rfl,
   peerCapabilities_absent_until_handshake.2.1 "test client" "1.0" none
     [ClientEvent.otherMessage] (by rfl),
   peerCapabilities_absent_until_handshake.2.2.1 "test client" "1.0" none
     [ClientEvent.otherMessage] "sampling" (by rfl),
   peerCapabilities_absent_until_handshake.2.2.2 (Client.new "test client" "1.0" none)
     { protocolVersion := "2025-06-18"
       capabilities := [("sampling", JSON.obj [])]
       serverInfoName := "test server"
       serverInfoVersion := "1.0" }⟩

/-- C5: a request sent with a timeout of zero rejects with the
RequestTimeout code (-32001) regardless of whether or when a response
would arrive. -/
theorem zeroTimeout_rejects_with_RequestTimeout :
    (∀ responseAt : Option Nat,
      settleWithTimeout 0 responseAt = .rejected ErrorCode.RequestTimeout.code) ∧
    ErrorCode.RequestTimeout.code = -32001 := by
  refine ⟨?_, rfl⟩
  intro responseAt
  cases responseAt with
  | none => rfl
  | some d => simp [settleWithTimeout]

/-- C6: firing a caller-supplied cancellation signal before any response
rejects the pending call with exactly the cancellation reason, removes
the PendingRequest, and a late-arriving response then has no further
effect. -/
theorem cancelledRequest_rejects_and_removed :
    ∀ (t : Tracker) (id : Nat) (reason : String),
      t.pending.Nodup → id ∈ t.pending →
      ((t.step (.abortBy id reason)).outcomes id
          = some (.rejectedWithReason reason)) ∧
      id ∉ (t.step (.abortBy id reason)).pending ∧
      ((t.step (.abortBy id reason)).step (.responseArrives id)
          = t.step (.abortBy id reason)) := by
  intro t id reason hnodup hmem
  have hstep : t.step (.abortBy id reason) =
      { pending := t.pending.erase id
        outcomes := fun n =>
          if n = id then some (.rejectedWithReason reason) else t.outcomes n } := by
    simp [Tracker.step, hmem]
  have hnot : id ∉ t.pending.erase id := fun hin =>
    ((List.Nodup.mem_erase_iff hnodup).mp hin).1 rfl
  refine ⟨?_, ?_, ?_⟩
  · rw [hstep]
    simp
  · rw [hstep]
    exact hnot
  · rw [hstep]
    simp [Tracker.step, hnot]

/-- Witness for C6: a tracker with the single pending id 1, aborted with
the reason "Cancelled by test". -/
theorem cancelledRequest_rejects_and_removed_witness :
    (([1] : List Nat).Nodup ∧ 1 ∈ ([1] : List Nat)) ∧
    ((Tracker.mk [1] (fun _ => none)).step (.abortBy 1 "Cancelled by test")).outcomes 1
        = some (.rejectedWithReason "Cancelled by test") ∧
    1 ∉ ((Tracker.mk [1] (fun _ => none)).step (.abortBy 1 "Cancelled by test")).pending ∧
    (((Tracker.mk [1] (fun _ => none)).step (.abortBy 1 "Cancelled by test")).step
        (.responseArrives 1)
      = (Tracker.mk [1] (fun _ => none)).step (.abortBy 1 "Cancelled by test")) :=
  ⟨⟨by simp, by simp⟩,
   cancelledRequest_rejects_and_removed (Tracker.mk [1] (fun _ => none)) 1
     "Cancelled by test" (by simp) (by simp)⟩

/-- C9: after the peer sets a minimum severity level (globally for a
transport without session identifier, per session otherwise), a
logging-message notification below that level is dropped before reaching
the transport, one at or above it is delivered, and setting a level for
one session leaves every other session's level untouched. -/
theorem logLevel_filters_messages :
    ∀ (st : LoggingState) (sessionId : Option String) (minL msgL : LoggingLevel)
      (sent : List LoggingLevel),
      (msgL.severity < minL.severity →
        sendLoggingMessage (st.setLevel sessionId minL) sessionId msgL sent = sent) ∧
      (minL.severity ≤ msgL.severity →
        sendLoggingMessage (st.setLevel sessionId minL) sessionId msgL sent
          = sent ++ [msgL]) ∧
      (∀ (s other : String), other ≠ s →
        (st.setLevel (some s) minL).levelFor (some other)
          = st.levelFor (some other)) := by
  intro st sessionId minL msgL sent
  have hlevel : (st.setLevel sessionId minL).levelFor sessionId = some minL := by
    cases sessionId with
    | none => rfl
    | some sid => simp [LoggingState.setLevel, LoggingState.levelFor]
  refine ⟨?_, ?_, ?_⟩
  · intro hlt
    have hfilter : shouldSendLog (st.setLevel sessionId minL) sessionId msgL = false := by
      simp only [shouldSendLog, hlevel]
      exact decide_eq_false (by omega)
    simp [sendLoggingMessage, hfilter]
  · intro hle
    have hfilter : shouldSendLog (st.setLevel sessionId minL) sessionId msgL = true := by
      simp only [shouldSendLog, hlevel]
      exact decide_eq_true hle
    simp [sendLoggingMessage, hfilter]
  · intro s other hne
    simp [LoggingState.setLevel, LoggingState.levelFor, hne]

/-- Witness for C9: with the minimum level set to warning, a debug
notification is dropped, a warning notification is delivered, and the
level of an unrelated session is unaffected. -/
theorem logLevel_filters_messages_witness :
    (LoggingLevel.debug.severity < LoggingLevel.warning.severity ∧
      sendLoggingMessage (LoggingState.initial.setLevel none .warning) none .debug []
        = []) ∧
    (LoggingLevel.warning.severity ≤ LoggingLevel.warning.severity ∧
      sendLoggingMessage (LoggingState.initial.setLevel none .warning) none .warning []
        = [.warning]) ∧
    ("other-session" ≠ "test-session-id" ∧
      (LoggingState.initial.setLevel (some "test-session-id") .warning).levelFor
          (some "other-session")
        = LoggingState.initial.levelFor (some "other-session")) :=
  ⟨⟨by decide,
    (logLevel_filters_messages LoggingState.initial none .warning .debug []).1
      (by decide)⟩,
   ⟨by decide,
    (logLevel_filters_messages LoggingState.initial none .warning .warning []).2.1
      (by decide)⟩,
   ⟨by decide,
    (logLevel_filters_messages LoggingState.initial none .warning .debug []).2.2
      "test-session-id" "other-session" (by decide)⟩⟩

end MCP
